import Mathlib

/-!
Shallow embedding of the sale-registration backend (src/server.js).

The store keeps the four tables of the Sequelize schema that the sale
route touches: products (`Produto`), sales (`Venda`) and the join rows
(`ItemVenda`); customers are only referenced by id, never read, so the
customer table is not modelled.  Monetary amounts (FLOAT columns) are
embedded as exact rationals; INTEGER columns as `Int`; ids as `Nat`.

The `POST /vendas` handler is `registerVenda`: it first creates an empty
`Venda` row bound to the request's `ClienteId`, then processes the items
in order (`processItens`), and on success writes the accumulated total
back into the sale row.  `venda.addProduto` on a `belongsToMany`
association inserts a join row when none exists for the pair
(VendaId, ProdutoId) and otherwise updates the existing row's through
attributes; `addProdutoRow` reproduces that upsert.
-/

set_option allowUnsafeReducibility true
attribute [local semireducible] Rat.add Rat.mul Rat.sub

namespace DNCommerce

structure Produto where
  id : Nat
  nome : String
  preco : ℚ
  estoque : Int
  deriving Repr, DecidableEq

structure Venda where
  id : Nat
  clienteId : Nat
  total : ℚ
  deriving Repr, DecidableEq

structure ItemVenda where
  vendaId : Nat
  produtoId : Nat
  quantidade : Int
  preco_unitario : ℚ
  deriving Repr, DecidableEq

structure Store where
  produtos : List Produto
  vendas : List Venda
  itens : List ItemVenda
  nextVendaId : Nat
  deriving Repr, DecidableEq

structure ItemReq where
  produtoId : Nat
  quantidade : Int
  deriving Repr, DecidableEq

structure VendaReq where
  clienteId : Nat
  itens : List ItemReq
  deriving Repr, DecidableEq

/-- `Produto.findByPk(id)`. -/
def findProduto (ps : List Produto) (pid : Nat) : Option Produto :=
  ps.find? (fun p => p.id == pid)

/-- `produto.update({ estoque: novo })`: rewrite the row with that primary key. -/
def updateEstoque (ps : List Produto) (pid : Nat) (novo : Int) : List Produto :=
  ps.map (fun p => if p.id == pid then { p with estoque := novo } else p)

/-- `venda.update({ total: t })`. -/
def updateVendaTotal (vs : List Venda) (vid : Nat) (t : ℚ) : List Venda :=
  vs.map (fun v => if v.id == vid then { v with total := t } else v)

def sameKey (vid pid : Nat) (it : ItemVenda) : Bool :=
  it.vendaId == vid && it.produtoId == pid

/-- `venda.addProduto(produto, { through })`: Sequelize upserts the join row
keyed by (VendaId, ProdutoId) — it updates the through attributes of an
existing association instead of inserting a second row. -/
def addProdutoRow (rows : List ItemVenda) (row : ItemVenda) : List ItemVenda :=
  if rows.any (sameKey row.vendaId row.produtoId) then
    rows.map (fun it =>
      if sameKey row.vendaId row.produtoId it then
        { it with quantidade := row.quantidade, preco_unitario := row.preco_unitario }
      else it)
  else rows ++ [row]

/-- One loop iteration's writes: the join row and the stock update. -/
def applyItem (vid : Nat) (s : Store) (item : ItemReq) (p : Produto) : Store :=
  { s with
    itens := addProdutoRow s.itens ⟨vid, item.produtoId, item.quantidade, p.preco⟩,
    produtos := updateEstoque s.produtos item.produtoId (p.estoque - item.quantidade) }

inductive ItemsResult where
  | ok (total : ℚ)
  | semProduto
  | semEstoque (nome : String)
  deriving Repr, DecidableEq

/-- The `for (const item of itens)` loop of the handler. -/
def processItens (vid : Nat) : List ItemReq → Store → ℚ → Store × ItemsResult
  | [], s, total => (s, .ok total)
  | item :: rest, s, total =>
    match findProduto s.produtos item.produtoId with
    | none => (s, .semProduto)
    | some p =>
      if p.estoque < item.quantidade then (s, .semEstoque p.nome)
      else processItens vid rest (applyItem vid s item p)
             (total + p.preco * (item.quantidade : ℚ))

inductive Resp where
  | created (vid : Nat)
  | semProduto
  | semEstoque (nome : String)
  deriving Repr, DecidableEq

def Resp.statusCode : Resp → Nat
  | .created _ => 201
  | .semProduto => 404
  | .semEstoque _ => 400

def Resp.errorMsg : Resp → Option String
  | .created _ => none
  | .semProduto => some "Produto não encontrado"
  | .semEstoque nome => some ("Estoque insuficiente para " ++ nome)

/-- Step 1 of the handler: `Venda.create({ ClienteId })` with total defaulting to 0. -/
def createVendaStep (s : Store) (cid : Nat) : Store :=
  { s with vendas := s.vendas ++ [⟨s.nextVendaId, cid, 0⟩],
           nextVendaId := s.nextVendaId + 1 }

/-- The whole `app.post('/vendas')` handler. -/
def registerVenda (s : Store) (req : VendaReq) : Store × Resp :=
  let vid := s.nextVendaId
  let s1 := createVendaStep s req.clienteId
  match processItens vid req.itens s1 0 with
  | (s2, .ok total) =>
    ({ s2 with vendas := updateVendaTotal s2.vendas vid total }, .created vid)
  | (s2, .semProduto) => (s2, .semProduto)
  | (s2, .semEstoque nome) => (s2, .semEstoque nome)

/-- The line items persisted for a given sale. -/
def rowsOf (s : Store) (vid : Nat) : List ItemVenda :=
  s.itens.filter (fun it => it.vendaId == vid)

/-- Sum of quantity times snapshotted unit price over a set of line items. -/
def sumLineItems (rows : List ItemVenda) : ℚ :=
  (rows.map (fun it => (it.quantidade : ℚ) * it.preco_unitario)).sum

def findVenda (vs : List Venda) (vid : Nat) : Option Venda :=
  vs.find? (fun v => v.id == vid)

/-- The item the loop is at would fail there: its product is absent or its
stock is short. -/
def itemFailsB (s : Store) (item : ItemReq) : Bool :=
  match findProduto s.produtos item.produtoId with
  | none => true
  | some p => p.estoque < item.quantidade

/-- The initial store of the spec's concrete scenarios:
P1 (price 10.00, stock 5) and P2 (price 20.00, stock 2). -/
def store0 : Store :=
  { produtos := [⟨1, "P1", 10, 5⟩, ⟨2, "P2", 20, 2⟩],
    vendas := [], itens := [], nextVendaId := 1 }

/-- The scenario sale: 2 units of P1 and 1 unit of P2. -/
def reqOk : VendaReq := ⟨1, [⟨1, 2⟩, ⟨2, 1⟩]⟩

/-- The state `store0` reaches when `reqOk` is registered. -/
def store0final : Store :=
  { produtos := [⟨1, "P1", 10, 3⟩, ⟨2, "P2", 20, 1⟩],
    vendas := [⟨1, 1, 40⟩],
    itens := [⟨1, 1, 2, 10⟩, ⟨1, 2, 1, 20⟩], nextVendaId := 2 }

/-- The failing scenario: 1 unit of P1 (in stock), then 3 units of P2 (short). -/
def reqAB : VendaReq := ⟨1, [⟨1, 1⟩, ⟨2, 3⟩]⟩

/-- The state reached from `store0` right before `reqAB`'s failing item. -/
def s2AB : Store :=
  { produtos := [⟨1, "P1", 10, 4⟩, ⟨2, "P2", 20, 2⟩],
    vendas := [⟨1, 1, 0⟩], itens := [⟨1, 1, 1, 10⟩], nextVendaId := 2 }

/-- The spec's second scenario: 3 units of P2 with only 2 in stock. -/
def reqP2 : VendaReq := ⟨1, [⟨2, 3⟩]⟩

/-- A one-product store used for the duplicate-item runs. -/
def storeA : Store :=
  { produtos := [⟨1, "A", 10, 5⟩], vendas := [], itens := [], nextVendaId := 1 }

/-- A request naming the same product twice. -/
def reqDup : VendaReq := ⟨1, [⟨1, 1⟩, ⟨1, 2⟩]⟩

/-- A request with a negative quantity. -/
def reqNeg : VendaReq := ⟨1, [⟨1, -2⟩]⟩

/-- A one-product store with stock 2, to probe the insufficient-stock payload. -/
def storeX : Store :=
  { produtos := [⟨1, "X", 10, 2⟩], vendas := [], itens := [], nextVendaId := 1 }

/-- Like `storeX` with stock 0. -/
def storeX0 : Store :=
  { produtos := [⟨1, "X", 10, 0⟩], vendas := [], itens := [], nextVendaId := 1 }

/-- The state reached from `storeX` right before its failing single item. -/
def s2X : Store :=
  { produtos := [⟨1, "X", 10, 2⟩], vendas := [⟨1, 1, 0⟩], itens := [],
    nextVendaId := 2 }

/-- An empty store, to probe the product-not-found payload. -/
def storeE : Store :=
  { produtos := [], vendas := [], itens := [], nextVendaId := 1 }

/-- The state reached from `storeE` right before its failing single item. -/
def s2E : Store :=
  { produtos := [], vendas := [⟨1, 1, 0⟩], itens := [], nextVendaId := 2 }

/-! ### Lemmas about the item loop -/

/-- The item loop never touches the sale table or the id counter. -/
theorem processItens_vendas (vid : Nat) :
    ∀ (itens : List ItemReq) (s : Store) (t : ℚ),
      ((processItens vid itens s t).1).vendas = s.vendas ∧
      ((processItens vid itens s t).1).nextVendaId = s.nextVendaId := by
  intro itens
  induction itens with
  | nil => intro s t; exact ⟨rfl, rfl⟩
  | cons item rest ih =>
    intro s t
    cases hfind : findProduto s.produtos item.produtoId with
    | none => simp [processItens, hfind]
    | some p =>
      by_cases hq : p.estoque < item.quantidade
      · simp [processItens, hfind, hq]
      · have h := ih (applyItem vid s item p) (t + p.preco * (item.quantidade : ℚ))
        simpa [processItens, hfind, hq, applyItem] using h

/-- Splitting the item loop after a prefix that succeeds. -/
theorem processItens_append_ok (vid : Nat) (as : List ItemReq) :
    ∀ (bs : List ItemReq) (s s2 : Store) (t t2 : ℚ),
      processItens vid as s t = (s2, ItemsResult.ok t2) →
      processItens vid (as ++ bs) s t = processItens vid bs s2 t2 := by
  induction as with
  | nil =>
    intro bs s s2 t t2 h
    simp only [processItens] at h
    obtain ⟨h1, h2⟩ := Prod.mk.injEq .. ▸ h
    cases h2
    simp [h1]
  | cons item rest ih =>
    intro bs s s2 t t2 h
    cases hfind : findProduto s.produtos item.produtoId with
    | none => simp [processItens, hfind] at h
    | some p =>
      by_cases hq : p.estoque < item.quantidade
      · simp [processItens, hfind, hq] at h
      · simp only [processItens, hfind, if_neg hq] at h
        simp only [List.cons_append, processItens, hfind, if_neg hq]
        exact ih bs _ s2 _ t2 h

/-- A map that fixes every row a filter keeps and never changes whether a row
is kept is invisible to that filter. -/
theorem filter_map_eq_filter {α : Type} (p : α → Bool) (f : α → α)
    (h1 : ∀ x, p x = true → f x = x) (h2 : ∀ x, p (f x) = p x) :
    ∀ l : List α, (l.map f).filter p = l.filter p := by
  intro l
  induction l with
  | nil => rfl
  | cons x xs ih =>
    by_cases hx : p x = true
    · simp only [List.map_cons, List.filter_cons, h2 x, hx, if_true, h1 x hx, ih]
    · have hx' : p x = false := by simpa using hx
      simp only [List.map_cons, List.filter_cons, h2 x, hx', Bool.false_eq_true,
        if_false, ih]

/-- The upsert touches only rows of its own sale. -/
theorem addProdutoRow_other (rows : List ItemVenda) (row : ItemVenda) (w : Nat)
    (hw : w ≠ row.vendaId) :
    (addProdutoRow rows row).filter (fun it => it.vendaId == w) =
      rows.filter (fun it => it.vendaId == w) := by
  unfold addProdutoRow
  split
  · apply filter_map_eq_filter
    · intro x hx
      have hxw : x.vendaId = w := by simpa using hx
      have hb : sameKey row.vendaId row.produtoId x = false := by
        have hv : (x.vendaId == row.vendaId) = false := by
          rw [hxw]
          exact beq_eq_false_iff_ne.mpr hw
        simp [sameKey, hv]
      simp [hb]
    · intro x
      by_cases h : sameKey row.vendaId row.produtoId x = true
      · simp [h]
      · simp [eq_false_of_ne_true h]
  · rw [List.filter_append]
    have hb : (row.vendaId == w) = false := beq_eq_false_iff_ne.mpr (Ne.symm hw)
    simp [hb]

/-- The item loop leaves the line items of every other sale untouched. -/
theorem processItens_rowsOf_other (vid w : Nat) (hw : w ≠ vid) :
    ∀ (itens : List ItemReq) (s : Store) (t : ℚ),
      rowsOf ((processItens vid itens s t).1) w = rowsOf s w := by
  intro itens
  induction itens with
  | nil => intro s t; rfl
  | cons item rest ih =>
    intro s t
    cases hfind : findProduto s.produtos item.produtoId with
    | none => simp [processItens, hfind]
    | some p =>
      by_cases hq : p.estoque < item.quantidade
      · simp [processItens, hfind, hq]
      · simp only [processItens, hfind, if_neg hq]
        rw [ih]
        simp only [rowsOf, applyItem]
        exact addProdutoRow_other s.itens _ w hw

theorem sumLineItems_append (l : List ItemVenda) (r : ItemVenda) :
    sumLineItems (l ++ [r]) = sumLineItems l + (r.quantidade : ℚ) * r.preco_unitario := by
  simp [sumLineItems]

/-- A successful run of the item loop over items with pairwise-distinct product
ids, none of which already has a row for this sale, appends exactly one line
item per item, and the total it accumulates is exactly the sum of quantity
times snapshotted unit price over the rows of this sale. -/
theorem processItens_ok_spec (vid : Nat) :
    ∀ (itens : List ItemReq) (s : Store) (t : ℚ) (s2 : Store) (t2 : ℚ),
      (itens.map ItemReq.produtoId).Nodup →
      (∀ it ∈ s.itens, it.vendaId = vid → it.produtoId ∉ itens.map ItemReq.produtoId) →
      processItens vid itens s t = (s2, ItemsResult.ok t2) →
      t2 + sumLineItems (rowsOf s vid) = t + sumLineItems (rowsOf s2 vid) ∧
      (rowsOf s2 vid).length = (rowsOf s vid).length + itens.length := by
  intro itens
  induction itens with
  | nil =>
    intro s t s2 t2 _ _ h
    simp only [processItens] at h
    injection h with hA hB
    injection hB with hB
    subst hA hB
    simp
  | cons item rest ih =>
    intro s t s2 t2 hnd hfr h
    rw [List.map_cons] at hnd
    obtain ⟨hhead, htail⟩ := List.nodup_cons.mp hnd
    cases hfind : findProduto s.produtos item.produtoId with
    | none => simp [processItens, hfind] at h
    | some p =>
      by_cases hq : p.estoque < item.quantidade
      · simp [processItens, hfind, hq] at h
      · simp only [processItens, hfind, if_neg hq] at h
        have hnew : s.itens.any (sameKey vid item.produtoId) = false := by
          rw [List.any_eq_false]
          intro x hx hsk
          simp only [sameKey, Bool.and_eq_true, beq_iff_eq] at hsk
          exact (hfr x hx hsk.1) (by simp [hsk.2])
        have hitens : (applyItem vid s item p).itens =
            s.itens ++ [⟨vid, item.produtoId, item.quantidade, p.preco⟩] := by
          simp [applyItem, addProdutoRow, hnew]
        have hrows : rowsOf (applyItem vid s item p) vid =
            rowsOf s vid ++ [⟨vid, item.produtoId, item.quantidade, p.preco⟩] := by
          simp only [rowsOf, hitens, List.filter_append]
          simp
        have hfr2 : ∀ it ∈ (applyItem vid s item p).itens, it.vendaId = vid →
            it.produtoId ∉ rest.map ItemReq.produtoId := by
          rw [hitens]
          intro it hit hvid
          rcases List.mem_append.mp hit with hold | hnewrow
          · have := hfr it hold hvid
            simp only [List.map_cons, List.mem_cons, not_or] at this
            exact this.2
          · have : it = ⟨vid, item.produtoId, item.quantidade, p.preco⟩ := by
              simpa using hnewrow
            subst this
            exact hhead
        obtain ⟨ihsum, ihlen⟩ :=
          ih (applyItem vid s item p) (t + p.preco * (item.quantidade : ℚ)) s2 t2
            htail hfr2 h
        rw [hrows] at ihsum ihlen
        rw [sumLineItems_append] at ihsum
        constructor
        · have : (⟨vid, item.produtoId, item.quantidade, p.preco⟩ :
              ItemVenda).quantidade = item.quantidade := rfl
          push_cast at ihsum ⊢
          linarith [ihsum]
        · simp only [List.length_append, List.length_cons, List.length_nil] at ihlen ⊢
          omega

/-- Every stock write of the item loop is guarded by the stock check, so it
keeps every stock non-negative. -/
theorem processItens_estoque_nonneg (vid : Nat) :
    ∀ (itens : List ItemReq) (s : Store) (t : ℚ),
      (∀ p ∈ s.produtos, 0 ≤ p.estoque) →
      ∀ p ∈ ((processItens vid itens s t).1).produtos, 0 ≤ p.estoque := by
  intro itens
  induction itens with
  | nil => intro s t h; exact h
  | cons item rest ih =>
    intro s t h
    cases hfind : findProduto s.produtos item.produtoId with
    | none => simpa [processItens, hfind] using h
    | some pf =>
      by_cases hq : pf.estoque < item.quantidade
      · simpa [processItens, hfind, hq] using h
      · simp only [processItens, hfind, if_neg hq]
        apply ih
        intro p hp
        simp only [applyItem, updateEstoque, List.mem_map] at hp
        rcases hp with ⟨x, hx, rfl⟩
        by_cases hid : (x.id == item.produtoId) = true
        · simp only [hid, if_true]
          omega
        · simp only [hid, Bool.false_eq_true, if_false]
          exact h x hx

/-! ### Unfolding the handler once the loop's outcome is known -/

theorem registerVenda_eq_of_ok (s : Store) (req : VendaReq) (s2 : Store) (t2 : ℚ)
    (h : processItens s.nextVendaId req.itens (createVendaStep s req.clienteId) 0 =
      (s2, ItemsResult.ok t2)) :
    registerVenda s req =
      ({ s2 with vendas := updateVendaTotal s2.vendas s.nextVendaId t2 },
        Resp.created s.nextVendaId) := by
  simp only [registerVenda, h]

theorem registerVenda_eq_of_semProduto (s : Store) (req : VendaReq) (s2 : Store)
    (h : processItens s.nextVendaId req.itens (createVendaStep s req.clienteId) 0 =
      (s2, ItemsResult.semProduto)) :
    registerVenda s req = (s2, Resp.semProduto) := by
  simp only [registerVenda, h]

theorem registerVenda_eq_of_semEstoque (s : Store) (req : VendaReq) (s2 : Store)
    (nome : String)
    (h : processItens s.nextVendaId req.itens (createVendaStep s req.clienteId) 0 =
      (s2, ItemsResult.semEstoque nome)) :
    registerVenda s req = (s2, Resp.semEstoque nome) := by
  simp only [registerVenda, h]

/-- A store holding no line item of a sale holds an empty row set for it. -/
theorem rowsOf_eq_nil (s : Store) (vid : Nat)
    (h : ∀ it ∈ s.itens, it.vendaId ≠ vid) : rowsOf s vid = [] := by
  rw [rowsOf, List.filter_eq_nil_iff]
  intro it hit
  simpa using h it hit

/-- Updating the freshly appended sale row when no earlier row carries its id. -/
theorem findVenda_update_append (vs : List Venda) (vid c : Nat) (t0 t : ℚ)
    (h : ∀ v ∈ vs, v.id ≠ vid) :
    findVenda (updateVendaTotal (vs ++ [⟨vid, c, t0⟩]) vid t) vid = some ⟨vid, c, t⟩ := by
  induction vs with
  | nil => simp [findVenda, updateVendaTotal]
  | cons v rest ih =>
    have hv : v.id ≠ vid := h v (by simp)
    have hb : (v.id == vid) = false := beq_eq_false_iff_ne.mpr hv
    simp only [List.cons_append, updateVendaTotal, List.map_cons, hb,
      Bool.false_eq_true, if_false, findVenda, List.find?_cons, hb]
    exact ih fun w hw => h w (by simp [hw])

/-! ### The claims -/

/-- C1 (amended): for every sale request accepted by the handler whose items
reference pairwise-distinct products, the total stored on the sale row equals
the exact sum over the sale's persisted line items of quantity times the unit
price snapshotted for that item. -/
theorem C1_total_eq_sum_lineitems (s : Store) (req : VendaReq) (s' : Store) (vid : Nat)
    (hnodup : (req.itens.map ItemReq.produtoId).Nodup)
    (hfreshI : ∀ it ∈ s.itens, it.vendaId ≠ s.nextVendaId)
    (hfreshV : ∀ v ∈ s.vendas, v.id ≠ s.nextVendaId)
    (hrun : registerVenda s req = (s', Resp.created vid)) :
    findVenda s'.vendas vid = some ⟨vid, req.clienteId, sumLineItems (rowsOf s' vid)⟩ := by
  rcases hres : processItens s.nextVendaId req.itens (createVendaStep s req.clienteId) 0
    with ⟨s2, r⟩
  cases r with
  | semProduto =>
    rw [registerVenda_eq_of_semProduto s req s2 hres] at hrun
    simp at hrun
  | semEstoque nome =>
    rw [registerVenda_eq_of_semEstoque s req s2 nome hres] at hrun
    simp at hrun
  | ok t2 =>
    rw [registerVenda_eq_of_ok s req s2 t2 hres] at hrun
    injection hrun with h1 h2
    injection h2 with h2
    subst h2
    subst h1
    have hfr : ∀ it ∈ (createVendaStep s req.clienteId).itens,
        it.vendaId = s.nextVendaId → it.produtoId ∉ req.itens.map ItemReq.produtoId := by
      intro it hit hv
      exact absurd hv (hfreshI it hit)
    obtain ⟨hsum, _⟩ := processItens_ok_spec s.nextVendaId req.itens
      (createVendaStep s req.clienteId) 0 s2 t2 hnodup hfr hres
    have hnil : rowsOf (createVendaStep s req.clienteId) s.nextVendaId = [] :=
      rowsOf_eq_nil _ _ hfreshI
    rw [hnil] at hsum
    have ht2 : t2 = sumLineItems (rowsOf s2 s.nextVendaId) := by
      simpa [sumLineItems] using hsum
    have hvendas : s2.vendas = s.vendas ++ [⟨s.nextVendaId, req.clienteId, 0⟩] := by
      have hv := (processItens_vendas s.nextVendaId req.itens
        (createVendaStep s req.clienteId) 0).1
      rw [hres] at hv
      simpa [createVendaStep] using hv
    show findVenda (updateVendaTotal s2.vendas s.nextVendaId t2) s.nextVendaId = _
    rw [hvendas, findVenda_update_append s.vendas s.nextVendaId req.clienteId 0 t2 hfreshV,
      ht2]
    rfl

/-- C1 witness: the scenario sale on `store0` satisfies the amended claim. -/
theorem C1_total_eq_sum_lineitems_witness :
    findVenda store0final.vendas 1 = some ⟨1, 1, sumLineItems (rowsOf store0final 1)⟩ :=
  C1_total_eq_sum_lineitems store0 reqOk store0final 1
    (by decide) (by decide) (by decide) (by decide)

/-- C1 counterexample: a request naming the same product twice (1 unit then 2
units of A at price 10) is accepted with stored total 30, but the upsert left a
single line item, whose sum 2 * 10 = 20 differs from the stored total. -/
theorem C1_counterexample :
    (registerVenda storeA reqDup).2 = Resp.created 1 ∧
    findVenda ((registerVenda storeA reqDup).1).vendas 1 = some ⟨1, 1, 30⟩ ∧
    sumLineItems (rowsOf (registerVenda storeA reqDup).1 1) ≠ 30 := by decide

/-- C2: the spec's concrete scenario: from P1 (price 10, stock 5) and
P2 (price 20, stock 2), selling 2 of P1 and 1 of P2 succeeds with status 201,
total 40, leaves stocks 3 and 1, and persists exactly the two line items with
unit prices 10 and 20. -/
theorem C2_concrete_scenario :
    registerVenda store0 reqOk = (store0final, Resp.created 1) ∧
    ((registerVenda store0 reqOk).2).statusCode = 201 ∧
    findVenda store0final.vendas 1 = some ⟨1, 1, 40⟩ ∧
    findProduto store0final.produtos 1 = some ⟨1, "P1", 10, 3⟩ ∧
    findProduto store0final.produtos 2 = some ⟨2, "P2", 20, 1⟩ ∧
    rowsOf store0final 1 = [⟨1, 1, 2, 10⟩, ⟨1, 2, 1, 20⟩] := by decide

/-- C3 counterexample: with items [P1: 1 unit (in stock), P2: 3 units (short)]
the call fails with 400, but a Sale row for the attempt persists, P1's line
item persists, and P1's stock was decremented from 5 to 4 — contradicting the
claimed roll-back to the pre-call state. -/
theorem C3_counterexample :
    (registerVenda store0 reqAB).2.statusCode = 400 ∧
    ((registerVenda store0 reqAB).1).vendas = [⟨1, 1, 0⟩] ∧
    rowsOf (registerVenda store0 reqAB).1 1 = [⟨1, 1, 1, 10⟩] ∧
    findProduto ((registerVenda store0 reqAB).1).produtos 1 = some ⟨1, "P1", 10, 4⟩ := by
  decide

/-- C3 (amended): when the handler fails partway through its item list, the
failing product's stock is unchanged and no line item is recorded for the
failing item, but the placeholder Sale row (total 0) persists, as do the line
items and stock decrements of the items processed before the failure — shown
on both of the spec's failing scenarios from `store0`. -/
theorem C3_amended_partial_failure :
    registerVenda store0 reqAB = (s2AB, Resp.semEstoque "P2") ∧
    registerVenda store0 reqP2 =
      ({ produtos := [⟨1, "P1", 10, 5⟩, ⟨2, "P2", 20, 2⟩],
         vendas := [⟨1, 1, 0⟩], itens := [], nextVendaId := 2 },
        Resp.semEstoque "P2") := by decide

/-- C4: when the loop fails at an item, the handler returns exactly the store
reached after the items before it: the placeholder Sale row bound to the
customer with total 0, the line items already recorded, and the stock
decrements already applied all remain persisted — no rollback occurs. -/
theorem C4_no_rollback (s : Store) (req : VendaReq) (pre : List ItemReq)
    (item : ItemReq) (rest : List ItemReq) (s2 : Store) (t2 : ℚ)
    (hsplit : req.itens = pre ++ item :: rest)
    (hok : processItens s.nextVendaId pre (createVendaStep s req.clienteId) 0 =
      (s2, ItemsResult.ok t2))
    (hfail : itemFailsB s2 item = true) :
    (registerVenda s req).1 = s2 ∧
    s2.vendas = s.vendas ++ [⟨s.nextVendaId, req.clienteId, 0⟩] ∧
    (registerVenda s req).2.statusCode ≠ 201 := by
  have hvendas : s2.vendas = s.vendas ++ [⟨s.nextVendaId, req.clienteId, 0⟩] := by
    have hv := (processItens_vendas s.nextVendaId pre
      (createVendaStep s req.clienteId) 0).1
    rw [hok] at hv
    simpa [createVendaStep] using hv
  have hstep : processItens s.nextVendaId req.itens (createVendaStep s req.clienteId) 0 =
      processItens s.nextVendaId (item :: rest) s2 t2 := by
    rw [hsplit]
    exact processItens_append_ok s.nextVendaId pre (item :: rest) _ s2 0 t2 hok
  cases hfind : findProduto s2.produtos item.produtoId with
  | none =>
    have hrun : processItens s.nextVendaId (item :: rest) s2 t2 =
        (s2, ItemsResult.semProduto) := by
      simp [processItens, hfind]
    rw [hrun] at hstep
    rw [registerVenda_eq_of_semProduto s req s2 hstep]
    exact ⟨rfl, hvendas, by simp [Resp.statusCode]⟩
  | some p =>
    have hq : p.estoque < item.quantidade := by
      unfold itemFailsB at hfail
      rw [hfind] at hfail
      exact of_decide_eq_true hfail
    have hrun : processItens s.nextVendaId (item :: rest) s2 t2 =
        (s2, ItemsResult.semEstoque p.nome) := by
      simp [processItens, hfind, hq]
    rw [hrun] at hstep
    rw [registerVenda_eq_of_semEstoque s req s2 p.nome hstep]
    exact ⟨rfl, hvendas, by simp [Resp.statusCode]⟩

/-- C4 witness: the partial-failure scenario from `store0` keeps P1's line
item, P1's decrement and the placeholder Sale row. -/
theorem C4_no_rollback_witness :
    (registerVenda store0 reqAB).1 = s2AB ∧
    s2AB.vendas = store0.vendas ++ [⟨1, 1, 0⟩] ∧
    (registerVenda store0 reqAB).2.statusCode ≠ 201 :=
  C4_no_rollback store0 reqAB [⟨1, 1⟩] ⟨2, 3⟩ [] s2AB 10
    (by decide) (by decide) (by decide)

/-- One handler call keeps every stock non-negative: the produtos table it
returns is the loop's, and every write of the loop is guarded. -/
theorem registerVenda_estoque_nonneg (s : Store) (req : VendaReq)
    (h : ∀ p ∈ s.produtos, 0 ≤ p.estoque) :
    ∀ p ∈ ((registerVenda s req).1).produtos, 0 ≤ p.estoque := by
  have hall := processItens_estoque_nonneg s.nextVendaId req.itens
    (createVendaStep s req.clienteId) 0 (by simpa [createVendaStep] using h)
  rcases hres : processItens s.nextVendaId req.itens (createVendaStep s req.clienteId) 0
    with ⟨s2, r⟩
  rw [hres] at hall
  cases r with
  | ok t2 =>
    rw [registerVenda_eq_of_ok s req s2 t2 hres]
    simpa using hall
  | semProduto =>
    rw [registerVenda_eq_of_semProduto s req s2 hres]
    simpa using hall
  | semEstoque nome =>
    rw [registerVenda_eq_of_semEstoque s req s2 nome hres]
    simpa using hall

/-- C5: starting from a store whose stocks are all non-negative, every
product's stock stays non-negative after each call of any sequence of
handler calls — the stock check at each item guards every decrement. -/
theorem C5_estoque_nonneg (reqs : List VendaReq) (s : Store)
    (h : ∀ p ∈ s.produtos, 0 ≤ p.estoque) :
    ∀ p ∈ (reqs.foldl (fun st r => (registerVenda st r).1) s).produtos,
      0 ≤ p.estoque := by
  induction reqs generalizing s with
  | nil => exact h
  | cons r rest ih =>
    simp only [List.foldl_cons]
    exact ih ((registerVenda s r).1) (registerVenda_estoque_nonneg s r h)

/-- C5 witness: after a successful sale followed by a failing one from
`store0`, P1's row is still in stock with a non-negative quantity. -/
theorem C5_estoque_nonneg_witness :
    0 ≤ (Produto.mk 1 "P1" 10 3).estoque :=
  C5_estoque_nonneg [reqOk, reqP2] store0 (by decide) ⟨1, "P1", 10, 3⟩ (by decide)

/-- C6 counterexample: requesting 3 (with 2 in stock), 7 (with 2 in stock) and
3 (with 0 in stock) units of product X all produce the identical 400 payload
"Estoque insuficiente para X": the payload names the product but reports
neither the requested nor the available quantity. -/
theorem C6_counterexample :
    (registerVenda storeX ⟨1, [⟨1, 3⟩]⟩).2.statusCode = 400 ∧
    (registerVenda storeX ⟨1, [⟨1, 3⟩]⟩).2.errorMsg =
      some "Estoque insuficiente para X" ∧
    (registerVenda storeX ⟨1, [⟨1, 3⟩]⟩).2.errorMsg =
      (registerVenda storeX ⟨1, [⟨1, 7⟩]⟩).2.errorMsg ∧
    (registerVenda storeX ⟨1, [⟨1, 3⟩]⟩).2.errorMsg =
      (registerVenda storeX0 ⟨1, [⟨1, 3⟩]⟩).2.errorMsg := by decide

/-- C6 (amended): whenever the loop reaches an item whose requested quantity
exceeds the product's current stock, the call fails with status 400 and the
payload "Estoque insuficiente para " followed by the product's name — naming
the product but not the quantities — and the store is returned exactly as it
was before the failing item, so no line item is recorded for it. -/
theorem C6_insufficient_stock_response (s : Store) (req : VendaReq)
    (pre : List ItemReq) (item : ItemReq) (rest : List ItemReq)
    (s2 : Store) (t2 : ℚ) (p : Produto)
    (hsplit : req.itens = pre ++ item :: rest)
    (hok : processItens s.nextVendaId pre (createVendaStep s req.clienteId) 0 =
      (s2, ItemsResult.ok t2))
    (hfind : findProduto s2.produtos item.produtoId = some p)
    (hq : p.estoque < item.quantidade) :
    registerVenda s req = (s2, Resp.semEstoque p.nome) ∧
    (registerVenda s req).2.statusCode = 400 ∧
    (registerVenda s req).2.errorMsg =
      some ("Estoque insuficiente para " ++ p.nome) := by
  have hstep : processItens s.nextVendaId req.itens (createVendaStep s req.clienteId) 0 =
      processItens s.nextVendaId (item :: rest) s2 t2 := by
    rw [hsplit]
    exact processItens_append_ok s.nextVendaId pre (item :: rest) _ s2 0 t2 hok
  have hrun : processItens s.nextVendaId (item :: rest) s2 t2 =
      (s2, ItemsResult.semEstoque p.nome) := by
    simp [processItens, hfind, hq]
  rw [hrun] at hstep
  rw [registerVenda_eq_of_semEstoque s req s2 p.nome hstep]
  exact ⟨rfl, rfl, rfl⟩

/-- C6 witness: the single short item on `storeX`. -/
theorem C6_insufficient_stock_response_witness :
    registerVenda storeX ⟨1, [⟨1, 3⟩]⟩ = (s2X, Resp.semEstoque "X") ∧
    (registerVenda storeX ⟨1, [⟨1, 3⟩]⟩).2.statusCode = 400 ∧
    (registerVenda storeX ⟨1, [⟨1, 3⟩]⟩).2.errorMsg =
      some ("Estoque insuficiente para " ++ "X") :=
  C6_insufficient_stock_response storeX ⟨1, [⟨1, 3⟩]⟩ [] ⟨1, 3⟩ [] s2X 0
    ⟨1, "X", 10, 2⟩ (by decide) (by decide) (by decide) (by decide)

/-- C7 counterexample: items naming the absent products 42 and 7 both produce
the identical 404 payload "Produto não encontrado": the payload does not name
the missing product id. -/
theorem C7_counterexample :
    (registerVenda storeE ⟨1, [⟨42, 1⟩]⟩).2.statusCode = 404 ∧
    (registerVenda storeE ⟨1, [⟨42, 1⟩]⟩).2.errorMsg = some "Produto não encontrado" ∧
    (registerVenda storeE ⟨1, [⟨42, 1⟩]⟩).2.errorMsg =
      (registerVenda storeE ⟨1, [⟨7, 1⟩]⟩).2.errorMsg := by decide

/-- C7 (amended): whenever the loop reaches an item whose product id matches
no product, the call fails with status 404 and the fixed payload
"Produto não encontrado", which does not reference the missing id. -/
theorem C7_not_found_response (s : Store) (req : VendaReq)
    (pre : List ItemReq) (item : ItemReq) (rest : List ItemReq)
    (s2 : Store) (t2 : ℚ)
    (hsplit : req.itens = pre ++ item :: rest)
    (hok : processItens s.nextVendaId pre (createVendaStep s req.clienteId) 0 =
      (s2, ItemsResult.ok t2))
    (hfind : findProduto s2.produtos item.produtoId = none) :
    registerVenda s req = (s2, Resp.semProduto) ∧
    (registerVenda s req).2.statusCode = 404 ∧
    (registerVenda s req).2.errorMsg = some "Produto não encontrado" := by
  have hstep : processItens s.nextVendaId req.itens (createVendaStep s req.clienteId) 0 =
      processItens s.nextVendaId (item :: rest) s2 t2 := by
    rw [hsplit]
    exact processItens_append_ok s.nextVendaId pre (item :: rest) _ s2 0 t2 hok
  have hrun : processItens s.nextVendaId (item :: rest) s2 t2 =
      (s2, ItemsResult.semProduto) := by
    simp [processItens, hfind]
  rw [hrun] at hstep
  rw [registerVenda_eq_of_semProduto s req s2 hstep]
  exact ⟨rfl, rfl, rfl⟩

/-- C7 witness: the absent product 42 on the empty store. -/
theorem C7_not_found_response_witness :
    registerVenda storeE ⟨1, [⟨42, 1⟩]⟩ = (s2E, Resp.semProduto) ∧
    (registerVenda storeE ⟨1, [⟨42, 1⟩]⟩).2.statusCode = 404 ∧
    (registerVenda storeE ⟨1, [⟨42, 1⟩]⟩).2.errorMsg = some "Produto não encontrado" :=
  C7_not_found_response storeE ⟨1, [⟨42, 1⟩]⟩ [] ⟨42, 1⟩ [] s2E 0
    (by decide) (by decide) (by decide)

/-- C8 (amended): a successful call persists exactly one line-item row per
distinct product id of the request (repeated entries for the same product
collapse into the one upserted row), and the call leaves the line items of
every other sale untouched. -/
theorem C8_one_row_per_distinct_product (s : Store) (req : VendaReq) (s' : Store)
    (vid : Nat)
    (hnodup : (req.itens.map ItemReq.produtoId).Nodup)
    (hfreshI : ∀ it ∈ s.itens, it.vendaId ≠ s.nextVendaId)
    (hrun : registerVenda s req = (s', Resp.created vid)) :
    (rowsOf s' vid).length = req.itens.length ∧
    ∀ w, w ≠ s.nextVendaId → rowsOf s' w = rowsOf s w := by
  rcases hres : processItens s.nextVendaId req.itens (createVendaStep s req.clienteId) 0
    with ⟨s2, r⟩
  cases r with
  | semProduto =>
    rw [registerVenda_eq_of_semProduto s req s2 hres] at hrun
    simp at hrun
  | semEstoque nome =>
    rw [registerVenda_eq_of_semEstoque s req s2 nome hres] at hrun
    simp at hrun
  | ok t2 =>
    rw [registerVenda_eq_of_ok s req s2 t2 hres] at hrun
    injection hrun with h1 h2
    injection h2 with h2
    subst h2
    subst h1
    constructor
    · have hfr : ∀ it ∈ (createVendaStep s req.clienteId).itens,
          it.vendaId = s.nextVendaId → it.produtoId ∉ req.itens.map ItemReq.produtoId := by
        intro it hit hv
        exact absurd hv (hfreshI it hit)
      obtain ⟨_, hlen⟩ := processItens_ok_spec s.nextVendaId req.itens
        (createVendaStep s req.clienteId) 0 s2 t2 hnodup hfr hres
      have hnil : rowsOf (createVendaStep s req.clienteId) s.nextVendaId = [] :=
        rowsOf_eq_nil _ _ hfreshI
      rw [hnil] at hlen
      simpa using hlen
    · intro w hw
      have hother := processItens_rowsOf_other s.nextVendaId w hw req.itens
        (createVendaStep s req.clienteId) 0
      rw [hres] at hother
      simpa using hother

/-- C8 witness: the scenario sale on `store0` has one row per item and leaves
the (empty) row sets of other sales untouched. -/
theorem C8_one_row_per_distinct_product_witness :
    (rowsOf store0final 1).length = reqOk.itens.length ∧
    ∀ w, w ≠ 1 → rowsOf store0final w = rowsOf store0 w :=
  C8_one_row_per_distinct_product store0 reqOk store0final 1
    (by decide) (by decide) (by decide)

/-- C8 counterexample: the request naming product A twice has two entries but
the accepted sale persists a single line-item row — the second entry updated
the first row instead of adding one. -/
theorem C8_counterexample :
    (registerVenda storeA reqDup).2 = Resp.created 1 ∧
    reqDup.itens.length = 2 ∧
    (rowsOf (registerVenda storeA reqDup).1 1).length = 1 := by decide

/-- C9 counterexample: an item with quantity -2 (hence ≤ 0) is not rejected:
the call succeeds with 201, records the line item with quantity -2, and raises
A's stock from 5 to 7 — a state change. -/
theorem C9_counterexample :
    (registerVenda storeA reqNeg).2.statusCode = 201 ∧
    findProduto ((registerVenda storeA reqNeg).1).produtos 1 = some ⟨1, "A", 10, 7⟩ ∧
    rowsOf (registerVenda storeA reqNeg).1 1 = [⟨1, 1, -2, 10⟩] := by decide

/-- C9 (amended): items naming an absent product are rejected with 404 and
short stock with 400, but an item's quantity is never validated: whenever the
product exists and its stock is at least the requested quantity — which holds
for every quantity ≤ 0 — the single-item call succeeds, records the line item
with that quantity, and moves the stock by its negation. -/
theorem C9_nonpositive_quantity_accepted (s : Store) (cid pid : Nat) (q : Int)
    (p : Produto)
    (hfind : findProduto s.produtos pid = some p)
    (hq : ¬ p.estoque < q) :
    (registerVenda s ⟨cid, [⟨pid, q⟩]⟩).2 = Resp.created s.nextVendaId ∧
    (registerVenda s ⟨cid, [⟨pid, q⟩]⟩).2.statusCode = 201 ∧
    ((registerVenda s ⟨cid, [⟨pid, q⟩]⟩).1).itens =
      addProdutoRow s.itens ⟨s.nextVendaId, pid, q, p.preco⟩ ∧
    ((registerVenda s ⟨cid, [⟨pid, q⟩]⟩).1).produtos =
      updateEstoque s.produtos pid (p.estoque - q) := by
  have hfind1 : findProduto (createVendaStep s cid).produtos pid = some p := hfind
  have hstep : processItens s.nextVendaId [⟨pid, q⟩] (createVendaStep s cid) 0 =
      (applyItem s.nextVendaId (createVendaStep s cid) ⟨pid, q⟩ p,
        ItemsResult.ok (0 + p.preco * (q : ℚ))) := by
    simp [processItens, hfind1, hq]
  rw [registerVenda_eq_of_ok s ⟨cid, [⟨pid, q⟩]⟩ _ _ hstep]
  exact ⟨rfl, rfl, rfl, rfl⟩

/-- C9 witness: quantity -2 of product A (stock 5) is accepted. -/
theorem C9_nonpositive_quantity_accepted_witness :
    (registerVenda storeA ⟨1, [⟨1, -2⟩]⟩).2 = Resp.created 1 ∧
    (registerVenda storeA ⟨1, [⟨1, -2⟩]⟩).2.statusCode = 201 ∧
    ((registerVenda storeA ⟨1, [⟨1, -2⟩]⟩).1).itens =
      addProdutoRow storeA.itens ⟨1, 1, -2, 10⟩ ∧
    ((registerVenda storeA ⟨1, [⟨1, -2⟩]⟩).1).produtos =
      updateEstoque storeA.produtos 1 (5 - (-2)) :=
  C9_nonpositive_quantity_accepted storeA 1 1 (-2) ⟨1, "A", 10, 5⟩
    (by decide) (by decide)

/-- C10: a request with an empty items list does not fail: it returns 201 with
a persisted Sale bound to the given customer id, with total 0 and no line
items, and neither the products table nor the line-item table changes. -/
theorem C10_empty_items (s : Store) (cid : Nat)
    (hfreshV : ∀ v ∈ s.vendas, v.id ≠ s.nextVendaId)
    (hfreshI : ∀ it ∈ s.itens, it.vendaId ≠ s.nextVendaId) :
    (registerVenda s ⟨cid, []⟩).2 = Resp.created s.nextVendaId ∧
    (registerVenda s ⟨cid, []⟩).2.statusCode = 201 ∧
    findVenda ((registerVenda s ⟨cid, []⟩).1).vendas s.nextVendaId =
      some ⟨s.nextVendaId, cid, 0⟩ ∧
    rowsOf (registerVenda s ⟨cid, []⟩).1 s.nextVendaId = [] ∧
    ((registerVenda s ⟨cid, []⟩).1).produtos = s.produtos ∧
    ((registerVenda s ⟨cid, []⟩).1).itens = s.itens := by
  have hstep : processItens s.nextVendaId ([] : List ItemReq) (createVendaStep s cid) 0 =
      (createVendaStep s cid, ItemsResult.ok 0) := rfl
  rw [registerVenda_eq_of_ok s ⟨cid, []⟩ _ _ hstep]
  refine ⟨rfl, rfl, ?_, ?_, rfl, rfl⟩
  · exact findVenda_update_append s.vendas s.nextVendaId cid 0 0 hfreshV
  · exact rowsOf_eq_nil _ _ hfreshI

/-- C10 witness: an empty sale for customer 7 on `storeA`. -/
theorem C10_empty_items_witness :
    (registerVenda storeA ⟨7, []⟩).2 = Resp.created 1 ∧
    (registerVenda storeA ⟨7, []⟩).2.statusCode = 201 ∧
    findVenda ((registerVenda storeA ⟨7, []⟩).1).vendas 1 = some ⟨1, 7, 0⟩ ∧
    rowsOf (registerVenda storeA ⟨7, []⟩).1 1 = [] ∧
    ((registerVenda storeA ⟨7, []⟩).1).produtos = storeA.produtos ∧
    ((registerVenda storeA ⟨7, []⟩).1).itens = storeA.itens :=
  C10_empty_items storeA 7 (by decide) (by decide)

end DNCommerce
